import Mathlib



/-!
Verification of the Hedera WalletConnect session-request adapter
(`src/lib/wallet/index.ts`): request validation and parsing
(`parseSessionRequest` / `validateParam`), the rejection path
(`rejectSessionRequest`), the JSON-RPC operation handlers, and the
base64 codec shared between them.

JavaScript values flowing through `params` are embedded as the inductive
type `JValue`; the handlers' interaction with the external Hedera signer
is embedded as a `SignerModel` record of the signer capabilities the
handlers invoke (`call`, `signTransaction`, `sign`, `getNetwork`).
Thrown JavaScript errors are embedded as `Except` / `Option` results.
-/

/-- A JavaScript value as it can appear in a JSON-RPC `params` position:
`null`, `undefined`, booleans, numbers, strings, arrays and objects. -/
inductive JValue where
  | null : JValue
  | undefined : JValue
  | bool : Bool → JValue
  | num : Int → JValue
  | str : String → JValue
  | arr : List JValue → JValue
  | obj : List (String × JValue) → JValue

/-- JavaScript `typeof` on an embedded value (`typeof null` is `"object"`,
arrays are `"object"` as well). -/
def typeofJ : JValue → String
  | .null => "object"
  | .undefined => "undefined"
  | .bool _ => "boolean"
  | .num _ => "number"
  | .str _ => "string"
  | .arr _ => "object"
  | .obj _ => "object"

/-- JavaScript truthiness: `null`, `undefined`, `false`, `0` and `""` are
falsy; every other value (including empty arrays and objects) is truthy. -/
def truthyJ : JValue → Bool
  | .null => false
  | .undefined => false
  | .bool b => b
  | .num n => n != 0
  | .str s => s != ""
  | .arr _ => true
  | .obj _ => true

/-- `Array.isArray`. -/
def JValue.isArray : JValue → Bool
  | .arr _ => true
  | _ => false

/-- Field lookup in an object's property list (first binding wins). -/
def lookupField : List (String × JValue) → String → JValue
  | [], _ => .undefined
  | (k, v) :: rest, name => if k = name then v else lookupField rest name

/-- Optional-chained property access `value?.name`: `undefined` on
`null`/`undefined` receivers and on every non-object receiver. -/
def jGet : JValue → String → JValue
  | .obj fields, name => lookupField fields name
  | _, _ => .undefined

/-- The string content of a value already validated to be a string. -/
def JValue.asStr : JValue → String
  | .str s => s
  | _ => ""

/-- The element list of a value already validated to be an array. -/
def JValue.asArr : JValue → List JValue
  | .arr xs => xs
  | _ => []

/-- The errors thrown inside `parseSessionRequest`: `getHederaError`
`INVALID_PARAMS` values (with their optional message), the
`getSdkError('INVALID_METHOD')` value, decoding failures of the base64
codec, and `AccountId.fromString` failures from the Hedera SDK. -/
inductive WalletError where
  | invalidParams : Option String → WalletError
  | invalidMethod : WalletError
  | decodeError : WalletError
  | invalidAccountId : WalletError
deriving DecidableEq

/-- The 64 characters of the standard base64 alphabet, in value order. -/
def base64Chars : List Char :=
  ['A', 'B', 'C', 'D', 'E', 'F', 'G', 'H', 'I', 'J', 'K', 'L', 'M',
   'N', 'O', 'P', 'Q', 'R', 'S', 'T', 'U', 'V', 'W', 'X', 'Y', 'Z',
   'a', 'b', 'c', 'd', 'e', 'f', 'g', 'h', 'i', 'j', 'k', 'l', 'm',
   'n', 'o', 'p', 'q', 'r', 's', 't', 'u', 'v', 'w', 'x', 'y', 'z',
   '0', '1', '2', '3', '4', '5', '6', '7', '8', '9', '+', '/']

/-- The base64 character of a sextet value. -/
def b64EncodeChar (n : Nat) : Char := base64Chars.getD n '='

/-- Position of a character in a list, counting from `i`. -/
def b64IndexFrom (i : Nat) : List Char → Char → Option Nat
  | [], _ => none
  | c :: rest, x => if c = x then some i else b64IndexFrom (i + 1) rest x

/-- The sextet value of a base64 character; `none` off the alphabet. -/
def b64DecodeChar (c : Char) : Option Nat := b64IndexFrom 0 base64Chars c

/-- Modelled from the spec: `encodeBytes` of §4.1 (the `Uint8ArrayToBase64String`
helper of the repository's shared codec module, absent from `src/`):
standard base64 encoding of a byte sequence, chunked three bytes at a time,
with `=` padding on a final one- or two-byte chunk. Total. -/
def encodeB64 : List Nat → List Char
  | [] => []
  | [b0] => [b64EncodeChar (b0 / 4), b64EncodeChar (b0 % 4 * 16), '=', '=']
  | [b0, b1] =>
      [b64EncodeChar (b0 / 4), b64EncodeChar (b0 % 4 * 16 + b1 / 16),
       b64EncodeChar (b1 % 16 * 4), '=']
  | b0 :: b1 :: b2 :: rest =>
      b64EncodeChar (b0 / 4) :: b64EncodeChar (b0 % 4 * 16 + b1 / 16) ::
      b64EncodeChar (b1 % 16 * 4 + b2 / 64) :: b64EncodeChar (b2 % 64) ::
      encodeB64 rest

/-- Modelled from the spec: the decoding direction of §4.1's codec
(`base64StringToMessage` and the byte-level step of
`base64StringToTransaction` / `base64StringToQuery`, absent from `src/`):
canonical base64 decoding, `none` on any input that is not a valid base64
string (wrong length, character off the alphabet, nonzero discarded
padding bits, or padding before the final chunk). -/
def decodeB64Chars : List Char → Option (List Nat)
  | [] => some []
  | c0 :: c1 :: c2 :: c3 :: rest =>
      if c2 = '=' ∧ c3 = '=' ∧ rest = [] then
        match b64DecodeChar c0, b64DecodeChar c1 with
        | some n0, some n1 =>
            if n1 % 16 = 0 then some [n0 * 4 + n1 / 16] else none
        | _, _ => none
      else if c3 = '=' ∧ rest = [] then
        match b64DecodeChar c0, b64DecodeChar c1, b64DecodeChar c2 with
        | some n0, some n1, some n2 =>
            if n2 % 4 = 0 then
              some [n0 * 4 + n1 / 16, n1 % 16 * 16 + n2 / 4]
            else none
        | _, _, _ => none
      else
        match b64DecodeChar c0, b64DecodeChar c1, b64DecodeChar c2,
              b64DecodeChar c3, decodeB64Chars rest with
        | some n0, some n1, some n2, some n3, some tail =>
            some ((n0 * 4 + n1 / 16) :: (n1 % 16 * 16 + n2 / 4) ::
                  (n2 % 4 * 64 + n3) :: tail)
        | _, _, _, _, _ => none
  | _ => none

/-- `Uint8ArrayToBase64String`: byte sequence to base64 text. -/
def Uint8ArrayToBase64String (bytes : List Nat) : String :=
  String.mk (encodeB64 bytes)

/-- Base64 text to byte sequence; `none` when not valid base64. -/
def decodeB64String (s : String) : Option (List Nat) :=
  decodeB64Chars s.data

/-- A Hedera account identifier (`shard.realm.num`). -/
structure AccountId where
  shard : Nat
  realm : Nat
  num : Nat
deriving DecidableEq

/-- Split a character list on `'.'` separators. -/
def splitDots : List Char → List (List Char)
  | [] => [[]]
  | c :: rest =>
      if c = '.' then [] :: splitDots rest
      else
        match splitDots rest with
        | [] => [[c]]
        | g :: gs => (c :: g) :: gs

/-- A nonempty all-digit character list as a natural number. -/
def digitsToNat : List Char → Option Nat
  | [] => none
  | cs =>
      if cs.all Char.isDigit then
        some (cs.foldl (fun a c => a * 10 + (c.toNat - 48)) 0)
      else none

/-- `AccountId.fromString` of the Hedera SDK at the interface granularity
this adapter relies on: parse a `shard.realm.num` string, throwing
(modelled as `Except.error`) on anything else. -/
def AccountId.fromString (s : String) : Except WalletError AccountId :=
  match (splitDots s.data).map digitsToNat with
  | [some a, some b, some c] => .ok ⟨a, b, c⟩
  | _ => .error .invalidAccountId

/-- A Hedera SDK `Transaction` at the granularity the adapter touches:
its canonical wire bytes (for the codec), the optional `transactionId`
and `nodeAccountIds` attributes the handlers dereference (held in their
`toString` form), the transaction hash `getTransactionHash` yields, and
the serialized signature map `getSignatures` yields. -/
structure Transaction where
  wireBytes : List Nat
  transactionId? : Option String
  nodeAccountIds? : Option (List String)
  txHash : List Nat
  sigMapBytes : List Nat
deriving DecidableEq

/-- A Hedera SDK `Query` at the granularity the adapter touches. -/
structure Query where
  wireBytes : List Nat
deriving DecidableEq

/-- Modelled from the spec: `decodeTransaction` of §4.1
(`base64StringToTransaction`, absent from `src/`): base64-decode the text
and read the bytes as a transaction, failing with a `DecodeError` on
invalid base64. The transaction wire grammar itself is external to this
repository, so every successfully decoded byte string is taken as a
well-formed transaction whose canonical wire bytes are the decoded bytes;
attributes not recoverable at this interface granularity are left unset. -/
def base64StringToTransaction (s : String) : Except WalletError Transaction :=
  match decodeB64String s with
  | some bytes => .ok ⟨bytes, none, none, [], []⟩
  | none => .error .decodeError

/-- Modelled from the spec: `decodeQuery` of §4.1 (`base64StringToQuery`,
absent from `src/`), analogous to `base64StringToTransaction`. -/
def base64StringToQuery (s : String) : Except WalletError Query :=
  match decodeB64String s with
  | some bytes => .ok ⟨bytes⟩
  | none => .error .decodeError

/-- Modelled from the spec: `decodeMessage` of §4.1
(`base64StringToMessage`, absent from `src/`): base64 decode, failing
with a `DecodeError` on invalid base64. -/
def base64StringToMessage (s : String) : Except WalletError (List Nat) :=
  match decodeB64String s with
  | some bytes => .ok bytes
  | none => .error .decodeError

/-- Modelled from the spec: `encodeSignatureMap` of §4.1
(`signatureMapToBase64`, absent from `src/`): the serialized signature
map, base64-encoded. Total. -/
def signatureMapToBase64 (sigMapBytes : List Nat) : String :=
  Uint8ArrayToBase64String sigMapBytes

/-- The decoded `body` of a session request: transactions, raw message
bytes, or a query, per the body-shape table of the parser. -/
inductive Body where
  | transactions : List Transaction → Body
  | message : List Nat → Body
  | query : Query → Body
deriving DecidableEq

/-- `Wallet.validateParam`: accept an array when an `array` is expected,
accept a value whose `typeof` equals the expected type, and otherwise
throw `INVALID_PARAMS` with the message naming the parameter, the
expected type and the actual `typeof`. -/
def validateParam (name : String) (value : JValue) (expectedType : String) :
    Option WalletError :=
  if expectedType = "array" ∧ value.isArray then none
  else if typeofJ value = expectedType then none
  else some (.invalidParams (some
    ("Invalid paramameter value for " ++ name ++ ", expected " ++
     expectedType ++ " but got " ++ typeofJ value)))

/-- The `forEach` element-wise validation of an array parameter: each
element must be a string, the error message embedding the element's
index (counting from `i`). -/
def validateElemsFrom (name : String) (i : Nat) : List JValue → Option WalletError
  | [] => none
  | x :: rest =>
      match validateParam (name ++ "[" ++ toString i ++ "]") x "string" with
      | some e => some e
      | none => validateElemsFrom name (i + 1) rest

/-- Array-of-strings validation of a parameter: the array check followed
by the element-wise string checks. -/
def validateStringArray (name : String) (v : JValue) : Option WalletError :=
  match validateParam name v "array" with
  | some e => some e
  | none => validateElemsFrom name 0 v.asArr

/-- Decode each element of an already-validated string array as a
base64-encoded transaction, propagating the first decode failure. -/
def decodeTxList : List JValue → Except WalletError (List Transaction)
  | [] => .ok []
  | x :: rest => do
      let t ← base64StringToTransaction x.asStr
      let ts ← decodeTxList rest
      .ok (t :: ts)

/-- Partial parse state of one `switch` case of `parseSessionRequest`:
the thrown error if any, together with the values the case had already
assigned to the `body` and `signerAccountId` variables when it threw. -/
abbrev CaseResult := Option WalletError × Option Body × Option AccountId

/-- The `ExecuteTransaction` case: validate `signedTransaction` as an
array of strings, then decode each entry as a transaction. -/
def executeTransactionCase (params : JValue) : CaseResult :=
  match validateStringArray "signedTransaction" (jGet params "signedTransaction") with
  | some e => (some e, none, none)
  | none =>
      match decodeTxList (jGet params "signedTransaction").asArr with
      | .error e => (some e, none, none)
      | .ok txs => (none, some (.transactions txs), none)

/-- The `SignMessage` case: validate `signerAccountId` and `message` as
strings, parse the account id, then decode the message; a decode failure
leaves the already-assigned account id in the partial state. -/
def signMessageCase (params : JValue) : CaseResult :=
  match validateParam "signerAccountId" (jGet params "signerAccountId") "string" with
  | some e => (some e, none, none)
  | none =>
      match validateParam "message" (jGet params "message") "string" with
      | some e => (some e, none, none)
      | none =>
          match AccountId.fromString (jGet params "signerAccountId").asStr with
          | .error e => (some e, none, none)
          | .ok acct =>
              match base64StringToMessage (jGet params "message").asStr with
              | .error e => (some e, none, some acct)
              | .ok bytes => (none, some (.message bytes), some acct)

/-- The `SignQueryAndSend` case: validate `signerAccountId` and `query`
as strings, parse the account id, then decode the query. -/
def signQueryAndSendCase (params : JValue) : CaseResult :=
  match validateParam "signerAccountId" (jGet params "signerAccountId") "string" with
  | some e => (some e, none, none)
  | none =>
      match validateParam "query" (jGet params "query") "string" with
      | some e => (some e, none, none)
      | none =>
          match AccountId.fromString (jGet params "signerAccountId").asStr with
          | .error e => (some e, none, none)
          | .ok acct =>
              match base64StringToQuery (jGet params "query").asStr with
              | .error e => (some e, none, some acct)
              | .ok q => (none, some (.query q), some acct)

/-- The shared shape of the `SignAndExecuteTransaction` and
`SignTransaction` cases: validate `signerAccountId` as a string and
`transaction` as an array of strings, parse the account id, then decode
each transaction; a decode failure leaves the account id assigned. -/
def signTransactionLikeCase (params : JValue) : CaseResult :=
  match validateParam "signerAccountId" (jGet params "signerAccountId") "string" with
  | some e => (some e, none, none)
  | none =>
      match validateStringArray "transaction" (jGet params "transaction") with
      | some e => (some e, none, none)
      | none =>
          match AccountId.fromString (jGet params "signerAccountId").asStr with
          | .error e => (some e, none, none)
          | .ok acct =>
              match decodeTxList (jGet params "transaction").asArr with
              | .error e => (some e, none, some acct)
              | .ok txs => (none, some (.transactions txs), some acct)

/-- The `switch (method)` of `parseSessionRequest`, dispatching on the
wire method name; the spec's §6 wire strings stand in for the
`HederaJsonRpcMethod` enum values (the enum module is outside `src/`).
An unknown method throws `getSdkError('INVALID_METHOD')`. -/
def runSwitch (method : String) (params : JValue) : CaseResult :=
  if method = "hedera_getNodeAddresses" then
    if truthyJ params then (some (.invalidParams none), none, none)
    else (none, none, none)
  else if method = "hedera_executeTransaction" then
    executeTransactionCase params
  else if method = "hedera_signMessage" then
    signMessageCase params
  else if method = "hedera_signQueryAndSend" then
    signQueryAndSendCase params
  else if method = "hedera_signAndExecuteTransaction" then
    signTransactionLikeCase params
  else if method = "hedera_signTransaction" then
    signTransactionLikeCase params
  else
    (some .invalidMethod, none, none)

/-- An incoming `Web3WalletTypes.SessionRequest` event at the fields the
adapter destructures: `id`, `topic`, and `params.{chainId, request.{method, params}}`. -/
structure SessionRequestEvent where
  id : Int
  topic : String
  chainId : String
  method : String
  params : JValue

/-- The normalized request descriptor `parseSessionRequest` returns. -/
structure SessionRequestDescriptor where
  method : String
  chainId : String
  id : Int
  topic : String
  body : Option Body
  accountId : Option AccountId
deriving DecidableEq

/-- `Wallet.parseSessionRequest`: run the method switch over the request
params; on an error thrown inside the switch, rethrow it when
`shouldThrow` is true and otherwise swallow it, returning the descriptor
built from the partially assigned `body` / `signerAccountId` variables. -/
def parseSessionRequest (event : SessionRequestEvent) (shouldThrow : Bool) :
    Except WalletError SessionRequestDescriptor :=
  match runSwitch event.method event.params with
  | (some e, body, acct) =>
      if shouldThrow then .error e
      else .ok ⟨event.method, event.chainId, event.id, event.topic, body, acct⟩
  | (none, body, acct) =>
      .ok ⟨event.method, event.chainId, event.id, event.topic, body, acct⟩

/-- A JSON-RPC error object `{code, message}`. -/
structure RpcError where
  code : Int
  message : String
deriving DecidableEq

/-- The error response envelope `rejectSessionRequest` sends. -/
structure ErrorResponseEnvelope where
  topic : String
  id : Int
  error : RpcError
  jsonrpc : String
deriving DecidableEq

/-- `Wallet.rejectSessionRequest`: parse with `shouldThrow = false` to
recover `id` and `topic`, then send the error-shaped envelope through
`respondSessionRequest` (the sent envelope is the returned value). -/
def rejectSessionRequest (event : SessionRequestEvent) (error : RpcError) :
    Except WalletError ErrorResponseEnvelope :=
  (parseSessionRequest event false).map fun d =>
    ⟨d.topic, d.id, error, "2.0"⟩

/-- Outcome of the external signer's `call` (submit) on one transaction:
resolve, reject with the SDK's typed `PrecheckStatusError` carrying
`status._code`, or reject with any other error. -/
inductive CallOutcome where
  | ok : CallOutcome
  | precheck : Nat → CallOutcome
  | failure : CallOutcome
deriving DecidableEq

/-- One entry of the signature collection `signer.sign` yields. -/
structure SignatureEntry where
  signature : List Nat
deriving DecidableEq

/-- The external Hedera signer capability at the four operations the
handlers invoke: `call` (submit/query execution), `signTransaction`
(`none` models a rejected promise), `sign` on a message payload, and the
stringified node account ids of `getNetwork`. -/
structure SignerModel where
  callResult : Transaction → CallOutcome
  signTransactionR : Transaction → Option Transaction
  sign : List (List Nat) → List SignatureEntry
  network : List String

/-- One per-transaction record of the ExecuteTransaction /
SignAndExecuteTransaction result arrays. -/
structure TransactionResultRecord where
  transactionId : String
  nodeId : String
  transactionHash : String
  precheckCode : Nat
deriving DecidableEq

/-- The `result` payloads of the six handlers' response envelopes. -/
inductive RpcResult where
  | nodeAddresses : List String → RpcResult
  | transactionResults : List TransactionResultRecord → RpcResult
  | signatureMap : String → RpcResult
  | queryResponse : String → RpcResult
  | signatureMaps : List String → RpcResult
deriving DecidableEq

/-- A success response envelope as the handlers assemble it. -/
structure ResponseEnvelope where
  topic : String
  id : Int
  jsonrpc : String
  result : RpcResult
deriving DecidableEq

/-- Sequential effect of an element-wise `array.map(async ...)` under
`Promise.all`: the list of element results, or the first rejection
(`Promise.all` rejects, so the handler throws and no envelope is sent). -/
def mapE {α β : Type} (f : α → Except Unit β) : List α → Except Unit (List β)
  | [] => .ok []
  | x :: xs => do
      let y ← f x
      let ys ← mapE f xs
      .ok (y :: ys)

/-- A rejected promise from an `Option`-valued signer operation. -/
def optToExcept {α : Type} : Option α → Except Unit α
  | some a => .ok a
  | none => .error ()

/-- The per-transaction body of `hedera_executeTransaction` (also the
second stage of `hedera_signAndExecuteTransaction`): dereference
`transactionId!` and `nodeAccountIds![0]` (throwing on `null` or an
empty node list), take the base64 transaction hash, then submit through
`signer.call` inside a `try` that catches every error and records
`err.status._code` only when the error is a `PrecheckStatusError`,
leaving `precheckCode` at `0` otherwise. -/
def executeTxOne (signer : SignerModel) (t : Transaction) :
    Except Unit TransactionResultRecord :=
  match t.transactionId?, t.nodeAccountIds? with
  | some tid, some (n :: _) =>
      let transactionHash := Uint8ArrayToBase64String t.txHash
      let precheckCode :=
        match signer.callResult t with
        | .ok => 0
        | .precheck c => c
        | .failure => 0
      .ok ⟨tid, n, transactionHash, precheckCode⟩
  | _, _ => .error ()

/-- `Wallet.hedera_executeTransaction`: submit each already-signed
transaction, collecting the per-transaction records in input order into
one response envelope. -/
def hedera_executeTransaction (id : Int) (topic : String)
    (body : List Transaction) (signer : SignerModel) :
    Except Unit ResponseEnvelope := do
  let result ← mapE (executeTxOne signer) body
  .ok ⟨topic, id, "2.0", .transactionResults result⟩

/-- `Wallet.hedera_signAndExecuteTransaction`: sign every transaction
through the signer first (`Promise.all`), then run the same
per-transaction submit stage as `hedera_executeTransaction` on the
signed transactions, in input order. -/
def hedera_signAndExecuteTransaction (id : Int) (topic : String)
    (body : List Transaction) (signer : SignerModel) :
    Except Unit ResponseEnvelope := do
  let signedTransactions ← mapE (fun t => optToExcept (signer.signTransactionR t)) body
  let result ← mapE (executeTxOne signer) signedTransactions
  .ok ⟨topic, id, "2.0", .transactionResults result⟩

/-- `Wallet.hedera_signTransaction`: sign every transaction through the
signer (no submission), then base64-encode each signed transaction's
signature map, in input order. -/
def hedera_signTransaction (id : Int) (topic : String)
    (body : List Transaction) (signer : SignerModel) :
    Except Unit ResponseEnvelope := do
  let transactions ← mapE (fun t => optToExcept (signer.signTransactionR t)) body
  let result := transactions.map fun t => signatureMapToBase64 t.sigMapBytes
  .ok ⟨topic, id, "2.0", .signatureMaps result⟩

/-- `Wallet.hedera_signMessage`: sign the payload, then base64-encode
the signature bytes of entry `[0]` of the returned signature collection
(dereferencing entry 0 throws when the collection is empty); any further
entries are not read. -/
def hedera_signMessage (id : Int) (topic : String) (body : List (List Nat))
    (signer : SignerModel) : Except Unit ResponseEnvelope :=
  match signer.sign body with
  | [] => .error ()
  | e :: _ =>
      .ok ⟨topic, id, "2.0", .signatureMap (Uint8ArrayToBase64String e.signature)⟩

/-- `Wallet.hedera_getNodeAddresses`: the stringified configured node
account ids, in one response envelope. -/
def hedera_getNodeAddresses (id : Int) (topic : String) (signer : SignerModel) :
    ResponseEnvelope :=
  ⟨topic, id, "2.0", .nodeAddresses signer.network⟩

/-- The handlers' unstated precondition on a transaction they submit:
`transactionId` set, `nodeAccountIds` set and nonempty. -/
def wellformedTx (t : Transaction) : Prop :=
  t.transactionId?.isSome = true ∧ ∃ n ns, t.nodeAccountIds? = some (n :: ns)

instance instDecWellformedTx (t : Transaction) : Decidable (wellformedTx t) :=
  match h : t.nodeAccountIds? with
  | none => isFalse (fun hc => by
      obtain ⟨-, n, ns, hn⟩ := hc
      rw [h] at hn
      cases hn)
  | some [] => isFalse (fun hc => by
      obtain ⟨-, n, ns, hn⟩ := hc
      rw [h] at hn
      cases hn)
  | some (n :: ns) =>
      match h2 : t.transactionId?.isSome with
      | true => isTrue ⟨h2, n, ns, h⟩
      | false => isFalse (fun hc => by
          obtain ⟨h1, -⟩ := hc
          rw [h2] at h1
          cases h1)

/-- The record `executeTxOne` produces on a wellformed transaction:
its stringified `transactionId`, first node id, base64 hash, and the
submit outcome's code (`0` for success, `status._code` for a precheck
rejection, and `0` again when `signer.call` rejects with any other
error, since the handler's `catch` ignores it). -/
def recordOf (signer : SignerModel) (t : Transaction) : TransactionResultRecord :=
  ⟨t.transactionId?.getD "", (t.nodeAccountIds?.getD []).headD "",
   Uint8ArrayToBase64String t.txHash,
   match signer.callResult t with
   | .ok => 0
   | .precheck c => c
   | .failure => 0⟩

/-- The six supported wire method names (§6 of the protocol surface). -/
def wireMethodNames : List String :=
  ["hedera_getNodeAddresses", "hedera_executeTransaction", "hedera_signMessage",
   "hedera_signQueryAndSend", "hedera_signAndExecuteTransaction", "hedera_signTransaction"]

/-- A concrete wellformed transaction fixture. -/
def cTxA : Transaction := ⟨[0, 1], some "0.0.12345@1", some ["0.0.3"], [9], [7]⟩

/-- A concrete transaction fixture violating the handlers' precondition
(no `transactionId`). -/
def cTxBad : Transaction := ⟨[2], none, some ["0.0.3"], [8], [6]⟩

/-- A second concrete wellformed transaction fixture. -/
def cTxBad2 : Transaction := ⟨[3, 4], some "0.0.777@2", some ["0.0.4", "0.0.5"], [10], [11]⟩

/-- A signer whose submit always rejects with a non-precheck error. -/
def cSignerFail : SignerModel := ⟨fun _ => .failure, fun t => some t, fun _ => [], []⟩

/-- A signer whose submit always resolves. -/
def cSignerOk : SignerModel := ⟨fun _ => .ok, fun t => some t, fun _ => [], []⟩

/-- Modelled from the spec: the encoding direction for transactions
(`transactionToBase64String` of the shared codec, absent from `src/`):
the transaction's canonical wire bytes, base64-encoded. -/
def transactionToBase64String (t : Transaction) : String :=
  Uint8ArrayToBase64String t.wireBytes

/-- Modelled from the spec: the encoding direction for queries, analogous
to `transactionToBase64String`. -/
def queryToBase64String (q : Query) : String :=
  Uint8ArrayToBase64String q.wireBytes

theorem b64IndexFrom_spec : ∀ (l : List Char) (i : Nat) (x : Char) (n : Nat),
    b64IndexFrom i l x = some n →
    i ≤ n ∧ n - i < l.length ∧ l.getD (n - i) '=' = x := by
  intro l
  induction l with
  | nil => intro i x n h; simp [b64IndexFrom] at h
  | cons c rest ih =>
    intro i x n h
    rw [b64IndexFrom] at h
    by_cases hc : c = x
    · simp [hc] at h
      subst h
      simp [hc]
    · simp [hc] at h
      obtain ⟨h1, h2, h3⟩ := ih (i + 1) x n h
      refine ⟨by omega, by simpa using (by omega : n - i < rest.length + 1), ?_⟩
      have : n - i = (n - (i + 1)) + 1 := by omega
      rw [this]
      simpa using h3

theorem b64DecodeChar_spec {c : Char} {n : Nat} (h : b64DecodeChar c = some n) :
    n < 64 ∧ b64EncodeChar n = c := by
  obtain ⟨-, h2, h3⟩ := b64IndexFrom_spec base64Chars 0 c n h
  simp only [Nat.sub_zero] at h2 h3
  have hlen : base64Chars.length = 64 := by decide
  rw [hlen] at h2
  exact ⟨h2, h3⟩

theorem b64DecodeChar_encodeChar (n : Nat) (h : n < 64) :
    b64DecodeChar (b64EncodeChar n) = some n := by
  have key : ∀ m : Fin 64, b64DecodeChar (b64EncodeChar m.val) = some m.val := by decide
  exact key ⟨n, h⟩

theorem b64EncodeChar_ne_pad {n : Nat} (h : n < 64) : b64EncodeChar n ≠ '=' := by
  intro he
  have hd := b64DecodeChar_encodeChar n h
  rw [he] at hd
  have hpad : b64DecodeChar '=' = none := by decide
  rw [hpad] at hd
  exact Option.noConfusion hd

theorem decodeB64Chars_encodeB64 : ∀ (bs : List Nat), (∀ b ∈ bs, b < 256) →
    decodeB64Chars (encodeB64 bs) = some bs
  | [], _ => rfl
  | [b0], h => by
      have hb0 : b0 < 256 := h b0 (by simp)
      have e1 := b64DecodeChar_encodeChar (b0 / 4) (by omega)
      have e2 := b64DecodeChar_encodeChar (b0 % 4 * 16) (by omega)
      rw [encodeB64, decodeB64Chars]
      rw [if_pos ⟨rfl, rfl, rfl⟩, e1, e2]
      simp <;> omega
  | [b0, b1], h => by
      have hb0 : b0 < 256 := h b0 (by simp)
      have hb1 : b1 < 256 := h b1 (by simp)
      have e1 := b64DecodeChar_encodeChar (b0 / 4) (by omega)
      have e2 := b64DecodeChar_encodeChar (b0 % 4 * 16 + b1 / 16) (by omega)
      have e3 := b64DecodeChar_encodeChar (b1 % 16 * 4) (by omega)
      rw [encodeB64, decodeB64Chars]
      rw [if_neg (by
        intro hcon
        exact b64EncodeChar_ne_pad (n := b1 % 16 * 4) (by omega) hcon.1)]
      rw [if_pos ⟨rfl, rfl⟩, e1, e2, e3]
      simp <;> omega
  | [b0, b1, b2], h => by
      have hb0 : b0 < 256 := h b0 (by simp)
      have hb1 : b1 < 256 := h b1 (by simp)
      have hb2 : b2 < 256 := h b2 (by simp)
      have e1 := b64DecodeChar_encodeChar (b0 / 4) (by omega)
      have e2 := b64DecodeChar_encodeChar (b0 % 4 * 16 + b1 / 16) (by omega)
      have e3 := b64DecodeChar_encodeChar (b1 % 16 * 4 + b2 / 64) (by omega)
      have e4 := b64DecodeChar_encodeChar (b2 % 64) (by omega)
      rw [encodeB64, decodeB64Chars]
      rw [if_neg (by
        intro hcon
        exact b64EncodeChar_ne_pad (n := b1 % 16 * 4 + b2 / 64) (by omega) hcon.1)]
      rw [if_neg (by
        intro hcon
        exact b64EncodeChar_ne_pad (n := b2 % 64) (by omega) hcon.1)]
      rw [e1, e2, e3, e4]
      simp [decodeB64Chars] <;> omega
  | b0 :: b1 :: b2 :: b3 :: rest, h => by
      have hb0 : b0 < 256 := h b0 (by simp)
      have hb1 : b1 < 256 := h b1 (by simp)
      have hb2 : b2 < 256 := h b2 (by simp)
      have ih := decodeB64Chars_encodeB64 (b3 :: rest)
        (fun b hb =>
          h b (List.mem_cons_of_mem _ (List.mem_cons_of_mem _ (List.mem_cons_of_mem _ hb))))
      have e1 := b64DecodeChar_encodeChar (b0 / 4) (by omega)
      have e2 := b64DecodeChar_encodeChar (b0 % 4 * 16 + b1 / 16) (by omega)
      have e3 := b64DecodeChar_encodeChar (b1 % 16 * 4 + b2 / 64) (by omega)
      have e4 := b64DecodeChar_encodeChar (b2 % 64) (by omega)
      rw [encodeB64, decodeB64Chars]
      rw [if_neg (by
        intro hcon
        exact b64EncodeChar_ne_pad (n := b1 % 16 * 4 + b2 / 64) (by omega) hcon.1)]
      rw [if_neg (by
        intro hcon
        exact b64EncodeChar_ne_pad (n := b2 % 64) (by omega) hcon.1)]
      rw [e1, e2, e3, e4, ih]
      simp <;> omega

theorem encodeB64_decodeB64Chars : ∀ (cs : List Char) (bs : List Nat),
    decodeB64Chars cs = some bs → encodeB64 bs = cs ∧ ∀ b ∈ bs, b < 256
  | [], bs, h => by
      rw [decodeB64Chars] at h
      cases h
      exact ⟨rfl, by simp⟩
  | [c0], bs, h => by simp [decodeB64Chars] at h
  | [c0, c1], bs, h => by simp [decodeB64Chars] at h
  | [c0, c1, c2], bs, h => by simp [decodeB64Chars] at h
  | c0 :: c1 :: c2 :: c3 :: rest, bs, h => by
      rw [decodeB64Chars] at h
      split_ifs at h with hpad2 hpad1
      · obtain ⟨hc2, hc3, hrest⟩ := hpad2
        subst hc2; subst hc3; subst hrest
        cases h0 : b64DecodeChar c0 with
        | none => rw [h0] at h; exact absurd h (by simp)
        | some n0 =>
        cases h1 : b64DecodeChar c1 with
        | none => rw [h0, h1] at h; exact absurd h (by simp)
        | some n1 =>
        rw [h0, h1] at h
        obtain ⟨hn0, he0⟩ := b64DecodeChar_spec h0
        obtain ⟨hn1, he1⟩ := b64DecodeChar_spec h1
        simp at h
        obtain ⟨hmod, hbs⟩ := h
        subst hbs
        refine ⟨?_, by intro b hb; simp at hb; omega⟩
        rw [encodeB64]
        have hx : (n0 * 4 + n1 / 16) / 4 = n0 := by omega
        have hy : (n0 * 4 + n1 / 16) % 4 * 16 = n1 := by omega
        rw [hx, hy, he0, he1]
      · obtain ⟨hc3, hrest⟩ := hpad1
        subst hc3; subst hrest
        cases h0 : b64DecodeChar c0 with
        | none => rw [h0] at h; exact absurd h (by simp)
        | some n0 =>
        cases h1 : b64DecodeChar c1 with
        | none => rw [h0, h1] at h; exact absurd h (by simp)
        | some n1 =>
        cases h2 : b64DecodeChar c2 with
        | none => rw [h0, h1, h2] at h; exact absurd h (by simp)
        | some n2 =>
        rw [h0, h1, h2] at h
        obtain ⟨hn0, he0⟩ := b64DecodeChar_spec h0
        obtain ⟨hn1, he1⟩ := b64DecodeChar_spec h1
        obtain ⟨hn2, he2⟩ := b64DecodeChar_spec h2
        simp at h
        obtain ⟨hmod, hbs⟩ := h
        subst hbs
        refine ⟨?_, by intro b hb; simp at hb; rcases hb with hb | hb <;> omega⟩
        rw [encodeB64]
        have hx : (n0 * 4 + n1 / 16) / 4 = n0 := by omega
        have hy : (n0 * 4 + n1 / 16) % 4 * 16 + (n1 % 16 * 16 + n2 / 4) / 16 = n1 := by
          omega
        have hz : (n1 % 16 * 16 + n2 / 4) % 16 * 4 = n2 := by omega
        rw [hx, hy, hz, he0, he1, he2]
      · cases h0 : b64DecodeChar c0 with
        | none => rw [h0] at h; exact absurd h (by simp)
        | some n0 =>
        cases h1 : b64DecodeChar c1 with
        | none => rw [h0, h1] at h; exact absurd h (by simp)
        | some n1 =>
        cases h2 : b64DecodeChar c2 with
        | none => rw [h0, h1, h2] at h; exact absurd h (by simp)
        | some n2 =>
        cases h3 : b64DecodeChar c3 with
        | none => rw [h0, h1, h2, h3] at h; exact absurd h (by simp)
        | some n3 =>
        cases htail : decodeB64Chars rest with
        | none => rw [h0, h1, h2, h3, htail] at h; exact absurd h (by simp)
        | some tail =>
        rw [h0, h1, h2, h3, htail] at h
        obtain ⟨hn0, he0⟩ := b64DecodeChar_spec h0
        obtain ⟨hn1, he1⟩ := b64DecodeChar_spec h1
        obtain ⟨hn2, he2⟩ := b64DecodeChar_spec h2
        obtain ⟨hn3, he3⟩ := b64DecodeChar_spec h3
        obtain ⟨ihenc, ihlt⟩ := encodeB64_decodeB64Chars rest tail htail
        simp at h
        subst h
        refine ⟨?_, ?_⟩
        · rw [encodeB64]
          have hx : (n0 * 4 + n1 / 16) / 4 = n0 := by omega
          have hy : (n0 * 4 + n1 / 16) % 4 * 16 + (n1 % 16 * 16 + n2 / 4) / 16 = n1 := by
            omega
          have hz : (n1 % 16 * 16 + n2 / 4) % 16 * 4 + (n2 % 4 * 64 + n3) / 64 = n2 := by
            omega
          have hw : (n2 % 4 * 64 + n3) % 64 = n3 := by omega
          rw [hx, hy, hz, hw, he0, he1, he2, he3, ihenc]
        · intro b hb
          simp at hb
          rcases hb with hb | hb | hb | hb
          · omega
          · omega
          · omega
          · exact ihlt b hb

theorem executeTxOne_wf {t : Transaction} (signer : SignerModel)
    (h : wellformedTx t) : executeTxOne signer t = .ok (recordOf signer t) := by
  obtain ⟨h1, n, ns, h2⟩ := h
  rcases ht : t.transactionId? with - | tid
  · rw [ht] at h1; simp at h1
  · rw [executeTxOne, ht, h2, recordOf, ht, h2]
    rfl

theorem executeTxOne_not_wf {t : Transaction} (signer : SignerModel)
    (h : ¬ wellformedTx t) : executeTxOne signer t = .error () := by
  rw [executeTxOne]
  rcases ht : t.transactionId? with - | tid
  · rfl
  · rcases hn : t.nodeAccountIds? with - | ⟨- | ⟨n, ns⟩⟩
    · rfl
    · rfl
    · exact absurd ⟨by rw [ht]; rfl, n, ns, hn⟩ h

theorem mapE_ok {α β : Type} (f : α → Except Unit β) (g : α → β) :
    ∀ (l : List α), (∀ a ∈ l, f a = .ok (g a)) → mapE f l = .ok (l.map g)
  | [], _ => rfl
  | x :: xs, h => by
      rw [mapE, h x (by simp), mapE_ok f g xs (fun a ha => h a (by simp [ha]))]
      rfl

theorem mapE_err {α β : Type} (f : α → Except Unit β) :
    ∀ (l : List α), (∃ a ∈ l, f a = .error ()) → mapE f l = .error ()
  | x :: xs, h => by
      rw [mapE]
      cases hf : f x with
      | error e => rfl
      | ok y =>
          obtain ⟨a, ha, hae⟩ := h
          cases ha with
          | head => rw [hf] at hae; cases hae
          | tail b ha2 =>
              rw [mapE_err f xs ⟨a, ha2, hae⟩]
              rfl

theorem executeTransactionCase_err_body {p : JValue} {e : WalletError}
    {b : Option Body} {a : Option AccountId}
    (h : executeTransactionCase p = (some e, b, a)) : b = none := by
  rw [executeTransactionCase] at h
  repeat' split at h
  all_goals simp_all

theorem signMessageCase_err_body {p : JValue} {e : WalletError}
    {b : Option Body} {a : Option AccountId}
    (h : signMessageCase p = (some e, b, a)) : b = none := by
  rw [signMessageCase] at h
  repeat' split at h
  all_goals simp_all

theorem signQueryAndSendCase_err_body {p : JValue} {e : WalletError}
    {b : Option Body} {a : Option AccountId}
    (h : signQueryAndSendCase p = (some e, b, a)) : b = none := by
  rw [signQueryAndSendCase] at h
  repeat' split at h
  all_goals simp_all

theorem signTransactionLikeCase_err_body {p : JValue} {e : WalletError}
    {b : Option Body} {a : Option AccountId}
    (h : signTransactionLikeCase p = (some e, b, a)) : b = none := by
  rw [signTransactionLikeCase] at h
  repeat' split at h
  all_goals simp_all

theorem runSwitch_err_body {m : String} {p : JValue} {e : WalletError}
    {b : Option Body} {a : Option AccountId}
    (h : runSwitch m p = (some e, b, a)) : b = none := by
  rw [runSwitch] at h
  split_ifs at h
  · simp_all
  · simp_all
  · exact executeTransactionCase_err_body h
  · exact signMessageCase_err_body h
  · exact signQueryAndSendCase_err_body h
  · exact signTransactionLikeCase_err_body h
  · exact signTransactionLikeCase_err_body h
  · simp_all

theorem parseSessionRequest_noThrow_eq (event : SessionRequestEvent) :
    parseSessionRequest event false =
      .ok ⟨event.method, event.chainId, event.id, event.topic,
           (runSwitch event.method event.params).2.1,
           (runSwitch event.method event.params).2.2⟩ := by
  rw [parseSessionRequest]
  rcases hrs : runSwitch event.method event.params with ⟨e?, body, acct⟩
  cases e? <;> simp

theorem parseSessionRequest_throw {event : SessionRequestEvent} {e : WalletError}
    {b : Option Body} {a : Option AccountId}
    (h : runSwitch event.method event.params = (some e, b, a)) :
    parseSessionRequest event true = .error e := by
  rw [parseSessionRequest, h]
  rfl

/-- C7: an envelope whose wire method is not one of the six supported
operation kinds fails with `InvalidMethodError`, whatever its params:
the `switch` default throws before any parameter validation or payload
decoding is reached. -/
theorem unknown_method_fails_before_validation (event : SessionRequestEvent)
    (h : event.method ∉ wireMethodNames) :
    parseSessionRequest event true = .error .invalidMethod := by
  simp only [wireMethodNames, List.mem_cons, List.not_mem_nil, or_false, not_or] at h
  obtain ⟨h1, h2, h3, h4, h5, h6⟩ := h
  exact parseSessionRequest_throw (by
    rw [runSwitch, if_neg h1, if_neg h2, if_neg h3, if_neg h4, if_neg h5, if_neg h6])

/-- C7 witness: a concrete unknown method is rejected with
`InvalidMethodError` regardless of its (here well-shaped) params. -/
theorem unknown_method_fails_before_validation_witness :
    parseSessionRequest ⟨1, "topicA", "hedera:testnet", "eth_signTransaction",
      .obj [("signedTransaction", .arr [.str "AAEC"])]⟩ true = .error .invalidMethod :=
  unknown_method_fails_before_validation
    ⟨1, "topicA", "hedera:testnet", "eth_signTransaction",
      .obj [("signedTransaction", .arr [.str "AAEC"])]⟩ (by decide)

/-- C8: `rejectSessionRequest` always succeeds, sending exactly the one
error-shaped envelope that carries the incoming event's `topic` and `id`
and the caller-supplied `{code, message}`, for every event including
malformed ones (wrong field types, unknown method). -/
theorem reject_always_sends_error_envelope (event : SessionRequestEvent)
    (error : RpcError) :
    rejectSessionRequest event error = .ok ⟨event.topic, event.id, error, "2.0"⟩ := by
  rw [rejectSessionRequest, parseSessionRequest_noThrow_eq]
  rfl

/-- C3 counterexample: `params: false` is neither `null` nor `undefined`,
yet the GetNodeAddresses case does not fail: the source guards with
JavaScript truthiness (`if (params) throw ...`), so the envelope parses
to a descriptor with `body` absent. -/
theorem getNodeAddresses_false_params_accepted :
    parseSessionRequest ⟨1, "topicB", "hedera:testnet", "hedera_getNodeAddresses",
      .bool false⟩ true =
    .ok ⟨"hedera_getNodeAddresses", "hedera:testnet", 1, "topicB", none, none⟩ := by rfl

/-- C3 (amended): a GetNodeAddresses envelope fails with
`InvalidParamsError` exactly when its `params` value is truthy in the
JavaScript sense; the falsy values (`null`, `undefined`, `false`, `0`,
`""`) all parse successfully to a descriptor with `body` and `accountId`
absent. -/
theorem getNodeAddresses_params_truthiness (idv : Int) (topic chainId : String)
    (params : JValue) :
    (truthyJ params = true →
      parseSessionRequest ⟨idv, topic, chainId, "hedera_getNodeAddresses", params⟩ true =
        .error (.invalidParams none))
  ∧ (truthyJ params = false →
      parseSessionRequest ⟨idv, topic, chainId, "hedera_getNodeAddresses", params⟩ true =
        .ok ⟨"hedera_getNodeAddresses", chainId, idv, topic, none, none⟩) := by
  constructor <;> intro h
  · exact parseSessionRequest_throw (by rw [runSwitch, if_pos rfl, if_pos h])
  · rw [parseSessionRequest]
    rw [show runSwitch "hedera_getNodeAddresses" params = (none, none, none) by
      rw [runSwitch, if_pos rfl, if_neg (by rw [h]; exact Bool.false_ne_true)]]

/-- C3 witness: a truthy (empty-object) params value is rejected with
`InvalidParamsError`, and a `null` params value parses to a descriptor
with `body` absent. -/
theorem getNodeAddresses_params_truthiness_witness :
    parseSessionRequest ⟨2, "tw", "hedera:testnet", "hedera_getNodeAddresses",
      .obj []⟩ true = .error (.invalidParams none)
  ∧ parseSessionRequest ⟨2, "tw", "hedera:testnet", "hedera_getNodeAddresses",
      .null⟩ true =
      .ok ⟨"hedera_getNodeAddresses", "hedera:testnet", 2, "tw", none, none⟩ :=
  ⟨(getNodeAddresses_params_truthiness 2 "tw" "hedera:testnet" (.obj [])).1 rfl,
   (getNodeAddresses_params_truthiness 2 "tw" "hedera:testnet" .null).2 rfl⟩

/-- C2 counterexample: with `shouldThrow = false`, a
SignAndExecuteTransaction envelope whose params validate but whose
transaction payload fails to decode is swallowed, yet the returned
descriptor carries the already-parsed `accountId` — it is not absent as
the claim states. -/
theorem parse_noThrow_accountId_not_absent :
    parseSessionRequest
      ⟨7, "topicC", "hedera:testnet", "hedera_signAndExecuteTransaction",
        .obj [("signerAccountId", .str "0.0.12345"), ("transaction", .arr [.str "!!!!"])]⟩
      false =
    .ok ⟨"hedera_signAndExecuteTransaction", "hedera:testnet", 7, "topicC",
         none, some ⟨0, 0, 12345⟩⟩ := by rfl

/-- C2 (amended): with `shouldThrow = false`, every validation or
decoding error is swallowed and the descriptor is returned with the
envelope's `id`/`topic`/`method`/`chainId` and with `body` absent;
`accountId`, however, keeps whatever value had been assigned before the
error was thrown (it is populated when a payload decode fails after
`signerAccountId` was successfully parsed, absent otherwise). -/
theorem parse_noThrow_swallows_with_body_absent (event : SessionRequestEvent)
    (e : WalletError) (b : Option Body) (a : Option AccountId)
    (h : runSwitch event.method event.params = (some e, b, a)) :
    parseSessionRequest event false =
      .ok ⟨event.method, event.chainId, event.id, event.topic, none, a⟩ := by
  have hb := runSwitch_err_body h
  subst hb
  rw [parseSessionRequest, h]
  rfl

/-- C2 witness: the amended statement applied to a concrete malformed
envelope (string where an array is expected): the error is swallowed and
both `body` and `accountId` are absent. -/
theorem parse_noThrow_swallows_with_body_absent_witness :
    parseSessionRequest
      ⟨9, "tz", "hedera:testnet", "hedera_executeTransaction",
        .obj [("signedTransaction", .str "AAEC")]⟩ false =
      .ok ⟨"hedera_executeTransaction", "hedera:testnet", 9, "tz", none, none⟩ :=
  parse_noThrow_swallows_with_body_absent
    ⟨9, "tz", "hedera:testnet", "hedera_executeTransaction",
      .obj [("signedTransaction", .str "AAEC")]⟩
    (.invalidParams (some
      "Invalid paramameter value for signedTransaction, expected array but got string"))
    none none (by rfl)

theorem validateElemsFrom_err (name : String) :
    ∀ (xs : List JValue) (i j : Nat), j < xs.length →
    (∀ k, k < j → typeofJ (xs.getD k .undefined) = "string") →
    typeofJ (xs.getD j .undefined) ≠ "string" →
    validateElemsFrom name i xs = some (.invalidParams (some
      ("Invalid paramameter value for " ++ (name ++ "[" ++ toString (i + j) ++ "]") ++
       ", expected " ++ "string" ++ " but got " ++ typeofJ (xs.getD j .undefined))))
  | [], i, j, hj, _, _ => by simp at hj
  | x :: rest, i, j, hj, hpre, hbad => by
      rw [validateElemsFrom]
      cases j with
      | zero =>
          simp only [List.getD_cons_zero] at hbad
          rw [validateParam, if_neg (by intro hcon; exact absurd hcon.1 (by decide)),
              if_neg hbad]
          simp only [List.getD_cons_zero, Nat.add_zero]
      | succ j' =>
          have hx : typeofJ x = "string" := by
            have := hpre 0 (by omega)
            simpa using this
          rw [validateParam, if_neg (by intro hcon; exact absurd hcon.1 (by decide)),
              if_pos hx]
          have hrec := validateElemsFrom_err name rest (i + 1) j'
            (by simpa using hj)
            (fun k hk => by
              have := hpre (k + 1) (by omega)
              simpa using this)
            (by simpa using hbad)
          rw [hrec]
          have harith : i + 1 + j' = i + (j' + 1) := by omega
          rw [harith]
          simp only [List.getD_cons_succ]

/-- C6: a declared field of the wrong shape makes `parse` (with
`shouldThrow = true`) fail with an `InvalidParamsError` whose message
names the offending field, the expected shape and the actual `typeof`;
for a non-string array element the message embeds the zero-based element
index (`field[j]`), shown here for the `signedTransaction` array of an
ExecuteTransaction envelope. -/
theorem invalid_param_message_names_field_and_index :
    (∀ (name : String) (v : JValue) (et : String),
      ¬ (et = "array" ∧ v.isArray = true) → typeofJ v ≠ et →
      validateParam name v et = some (.invalidParams (some
        ("Invalid paramameter value for " ++ name ++ ", expected " ++ et ++
         " but got " ++ typeofJ v))))
  ∧ (∀ (idv : Int) (topic chainId : String) (fields : List (String × JValue))
        (xs : List JValue) (j : Nat),
      lookupField fields "signedTransaction" = .arr xs →
      j < xs.length →
      (∀ k, k < j → typeofJ (xs.getD k .undefined) = "string") →
      typeofJ (xs.getD j .undefined) ≠ "string" →
      parseSessionRequest ⟨idv, topic, chainId, "hedera_executeTransaction",
          .obj fields⟩ true =
        .error (.invalidParams (some
          ("Invalid paramameter value for " ++
           ("signedTransaction" ++ "[" ++ toString j ++ "]") ++
           ", expected " ++ "string" ++ " but got " ++ typeofJ (xs.getD j .undefined))))) := by
  constructor
  · intro name v et hno hne
    rw [validateParam, if_neg hno, if_neg hne]
  · intro idv topic chainId fields xs j hlf hj hpre hbad
    have helems := validateElemsFrom_err "signedTransaction" xs 0 j hj hpre hbad
    rw [Nat.zero_add] at helems
    refine parseSessionRequest_throw (b := none) (a := none) ?_
    show runSwitch "hedera_executeTransaction" (.obj fields) = _
    rw [runSwitch, if_neg (by decide), if_pos rfl]
    rw [executeTransactionCase]
    have hget : jGet (.obj fields) "signedTransaction" = .arr xs := by
      rw [jGet, hlf]
    rw [hget]
    rw [validateStringArray,
        show validateParam "signedTransaction" (.arr xs) "array" = none by
          rw [validateParam, if_pos ⟨rfl, rfl⟩]]
    show (match validateElemsFrom "signedTransaction" 0 (JValue.asArr (.arr xs)) with
      | some e => (some e, none, none)
      | none => _) = _
    rw [show JValue.asArr (.arr xs) = xs from rfl, helems]

/-- C6 witness: the spec's concrete scenario — `signedTransaction: [123]`
fails naming `signedTransaction[0]` with actual type `number`. -/
theorem invalid_param_message_names_field_and_index_witness :
    parseSessionRequest ⟨2, "tx6", "hedera:testnet", "hedera_executeTransaction",
      .obj [("signedTransaction", .arr [.num 123])]⟩ true =
    .error (.invalidParams (some
      "Invalid paramameter value for signedTransaction[0], expected string but got number")) := by
  have h := invalid_param_message_names_field_and_index.2 2 "tx6" "hedera:testnet"
    [("signedTransaction", .arr [.num 123])] [.num 123] 0
    (by rfl) (by decide) (fun k hk => absurd hk (by omega)) (by decide)
  simpa using h

/-- C5: the SignMessage handler's response base64-encodes only the
signature bytes of the first entry of the signer's signature collection;
the output is the same for any two signers whose collections share that
first entry, so every further entry is discarded. -/
theorem signMessage_encodes_only_first_signature (idv : Int) (topic : String)
    (body : List (List Nat)) (signer : SignerModel) (e : SignatureEntry)
    (h : (signer.sign body).head? = some e) :
    hedera_signMessage idv topic body signer =
      .ok ⟨topic, idv, "2.0", .signatureMap (Uint8ArrayToBase64String e.signature)⟩
  ∧ ∀ signer2 : SignerModel, (signer2.sign body).head? = some e →
      hedera_signMessage idv topic body signer2 =
        hedera_signMessage idv topic body signer := by
  have key : ∀ s : SignerModel, (s.sign body).head? = some e →
      hedera_signMessage idv topic body s =
        .ok ⟨topic, idv, "2.0", .signatureMap (Uint8ArrayToBase64String e.signature)⟩ := by
    intro s hs
    cases hsig : s.sign body with
    | nil => rw [hsig] at hs; cases hs
    | cons e0 rest =>
        rw [hsig] at hs
        simp only [List.head?_cons, Option.some.injEq] at hs
        subst hs
        rw [hedera_signMessage, hsig]
  refine ⟨key signer h, fun signer2 h2 => ?_⟩
  rw [key signer h, key signer2 h2]

/-- C5 witness: a signer returning two signature entries — only the
first entry's bytes appear in the response. -/
theorem signMessage_encodes_only_first_signature_witness :
    hedera_signMessage 4 "tm" [[0, 1, 2]]
      ⟨fun _ => .ok, fun t => some t, fun _ => [⟨[9]⟩, ⟨[255]⟩], []⟩ =
    .ok ⟨"tm", 4, "2.0", .signatureMap (Uint8ArrayToBase64String [9])⟩ :=
  (signMessage_encodes_only_first_signature 4 "tm" [[0, 1, 2]]
    ⟨fun _ => .ok, fun t => some t, fun _ => [⟨[9]⟩, ⟨[255]⟩], []⟩ ⟨[9]⟩ rfl).1

theorem executeTransaction_ok_shape (idv : Int) (topic : String)
    (body : List Transaction) (signer : SignerModel)
    (hwf : ∀ t ∈ body, wellformedTx t) :
    hedera_executeTransaction idv topic body signer =
      .ok ⟨topic, idv, "2.0", .transactionResults (body.map (recordOf signer))⟩ := by
  rw [hedera_executeTransaction,
      mapE_ok (executeTxOne signer) (recordOf signer) body
        (fun t ht => executeTxOne_wf signer (hwf t ht))]
  rfl

theorem signAndExecuteTransaction_ok_shape (idv : Int) (topic : String)
    (body : List Transaction) (signer : SignerModel) (σ : Transaction → Transaction)
    (hσ : ∀ t ∈ body, signer.signTransactionR t = some (σ t))
    (hσwf : ∀ t ∈ body, wellformedTx (σ t)) :
    hedera_signAndExecuteTransaction idv topic body signer =
      .ok ⟨topic, idv, "2.0",
           .transactionResults (body.map (fun t => recordOf signer (σ t)))⟩ := by
  rw [hedera_signAndExecuteTransaction,
      mapE_ok (fun t => optToExcept (signer.signTransactionR t)) σ body
        (fun t ht => by
          show optToExcept (signer.signTransactionR t) = Except.ok (σ t)
          rw [hσ t ht]
          rfl)]
  show (do
    let result ← mapE (executeTxOne signer) (body.map σ)
    Except.ok ⟨topic, idv, "2.0", .transactionResults result⟩ :
      Except Unit ResponseEnvelope) = _
  rw [mapE_ok (executeTxOne signer) (recordOf signer) (body.map σ)
        (fun t ht => by
          obtain ⟨u, hu, hut⟩ := List.mem_map.mp ht
          subst hut
          exact executeTxOne_wf signer (hσwf u hu))]
  rw [List.map_map]
  rfl

/-- C1 (amended): for a wellformed batch, both submit handlers always
produce their response envelope whatever `signer.call` does: a precheck
rejection is converted to that transaction's `precheckCode` (non-zero
when the status code is), but any other submit error is caught and
ignored too, leaving `precheckCode` at `0` — it does not propagate, and
a response is still produced. Only errors outside the submit call, such
as a failing `signer.signTransaction`, propagate uncaught so that no
envelope is sent. -/
theorem submit_error_conversion (idv : Int) (topic : String)
    (body : List Transaction) (signer : SignerModel)
    (hwf : ∀ t ∈ body, wellformedTx t) :
    hedera_executeTransaction idv topic body signer =
      .ok ⟨topic, idv, "2.0", .transactionResults (body.map (recordOf signer))⟩
  ∧ (∀ σ : Transaction → Transaction,
      (∀ t ∈ body, signer.signTransactionR t = some (σ t)) →
      (∀ t ∈ body, wellformedTx (σ t)) →
      hedera_signAndExecuteTransaction idv topic body signer =
        .ok ⟨topic, idv, "2.0",
             .transactionResults (body.map (fun t => recordOf signer (σ t)))⟩)
  ∧ (∀ t c, signer.callResult t = .precheck c → (recordOf signer t).precheckCode = c)
  ∧ (∀ t, signer.callResult t = .failure → (recordOf signer t).precheckCode = 0)
  ∧ (∀ t0 ∈ body, signer.signTransactionR t0 = none →
      hedera_signAndExecuteTransaction idv topic body signer = .error ()) := by
  refine ⟨executeTransaction_ok_shape idv topic body signer hwf,
          fun σ hσ hσwf => signAndExecuteTransaction_ok_shape idv topic body signer σ hσ hσwf,
          fun t c hc => by rw [recordOf, hc],
          fun t hc => by rw [recordOf, hc],
          fun t0 ht0 hnone => ?_⟩
  rw [hedera_signAndExecuteTransaction,
      mapE_err (fun t => optToExcept (signer.signTransactionR t)) body
        ⟨t0, ht0, by
          show optToExcept (signer.signTransactionR t0) = Except.error ()
          rw [hnone]
          rfl⟩]
  rfl

/-- C1 witness: the amended statement applied to a concrete wellformed
transaction and a signer that rejects submission with a precheck error
of code 7: the handler responds with `precheckCode 7`. -/
theorem submit_error_conversion_witness :
    hedera_executeTransaction 1 "tw1" [cTxA] ⟨fun _ => .precheck 7, fun t => some t, fun _ => [], []⟩ =
      .ok ⟨"tw1", 1, "2.0",
           .transactionResults
             ([cTxA].map (recordOf ⟨fun _ => .precheck 7, fun t => some t, fun _ => [], []⟩))⟩ :=
  (submit_error_conversion 1 "tw1" [cTxA]
    ⟨fun _ => .precheck 7, fun t => some t, fun _ => [], []⟩
    (by intro t ht; simp at ht; subst ht; decide)).1

/-- C1 counterexample: a submission rejection that is not a precheck
error does not propagate out of the handler — the handler catches it,
records `precheckCode 0` and still produces a response envelope,
contradicting the claim that no response is produced. -/
theorem nonprecheck_submit_error_still_responds :
    cSignerFail.callResult cTxA = .failure
  ∧ hedera_executeTransaction 1 "tcx" [cTxA] cSignerFail =
      .ok ⟨"tcx", 1, "2.0",
           .transactionResults [⟨"0.0.12345@1", "0.0.3", "CQ==", 0⟩]⟩ := ⟨rfl, rfl⟩

theorem stringMk_data (s : String) : String.mk s.data = s := rfl

/-- C4: a wellformed batch of N transactions yields exactly N result
records in input order from ExecuteTransaction and
SignAndExecuteTransaction, each with `precheckCode 0` when its
submission succeeds, and exactly N base64 signature maps in input order
from SignTransaction, whose output never consults the signer's submit
capability. -/
theorem batch_results_length_order_success (idv : Int) (topic : String)
    (body : List Transaction) (signer : SignerModel) (σ : Transaction → Transaction)
    (hwf : ∀ t ∈ body, wellformedTx t)
    (hok : ∀ t ∈ body, signer.callResult t = .ok)
    (hσ : ∀ t ∈ body, signer.signTransactionR t = some (σ t))
    (hσwf : ∀ t ∈ body, wellformedTx (σ t))
    (hσok : ∀ t ∈ body, signer.callResult (σ t) = .ok) :
    (hedera_executeTransaction idv topic body signer =
        .ok ⟨topic, idv, "2.0", .transactionResults (body.map (recordOf signer))⟩
      ∧ (body.map (recordOf signer)).length = body.length
      ∧ ∀ t ∈ body, (recordOf signer t).precheckCode = 0)
  ∧ (hedera_signAndExecuteTransaction idv topic body signer =
        .ok ⟨topic, idv, "2.0",
             .transactionResults (body.map (fun t => recordOf signer (σ t)))⟩
      ∧ (body.map (fun t => recordOf signer (σ t))).length = body.length
      ∧ ∀ t ∈ body, (recordOf signer (σ t)).precheckCode = 0)
  ∧ (hedera_signTransaction idv topic body signer =
        .ok ⟨topic, idv, "2.0",
             .signatureMaps (body.map (fun t => signatureMapToBase64 (σ t).sigMapBytes))⟩
      ∧ (body.map (fun t => signatureMapToBase64 (σ t).sigMapBytes)).length = body.length
      ∧ ∀ signer2 : SignerModel, signer2.signTransactionR = signer.signTransactionR →
          hedera_signTransaction idv topic body signer2 =
            hedera_signTransaction idv topic body signer) := by
  refine ⟨⟨executeTransaction_ok_shape idv topic body signer hwf, by simp,
           fun t ht => by rw [recordOf, hok t ht]⟩,
          ⟨signAndExecuteTransaction_ok_shape idv topic body signer σ hσ hσwf, by simp,
           fun t ht => by rw [recordOf, hσok t ht]⟩,
          ⟨?_, by simp, fun signer2 h2 => by
            simp only [hedera_signTransaction, h2]⟩⟩
  rw [hedera_signTransaction,
      mapE_ok (fun t => optToExcept (signer.signTransactionR t)) σ body
        (fun t ht => by
          show optToExcept (signer.signTransactionR t) = Except.ok (σ t)
          rw [hσ t ht]
          rfl)]
  show (Except.ok ⟨topic, idv, "2.0",
        .signatureMaps ((body.map σ).map fun t => signatureMapToBase64 t.sigMapBytes)⟩ :
      Except Unit ResponseEnvelope) =
    Except.ok ⟨topic, idv, "2.0",
        .signatureMaps (body.map (fun t => signatureMapToBase64 (σ t).sigMapBytes))⟩
  rw [List.map_map]
  rfl

/-- C4 witness: a concrete two-transaction batch with identity signing
and successful submissions — two records in order with `precheckCode 0`
and two signature maps in order. -/
theorem batch_results_length_order_success_witness :
    hedera_executeTransaction 5 "tw4" [cTxA, cTxBad2] cSignerOk =
      .ok ⟨"tw4", 5, "2.0",
           .transactionResults ([cTxA, cTxBad2].map (recordOf cSignerOk))⟩
  ∧ hedera_signTransaction 5 "tw4" [cTxA, cTxBad2] cSignerOk =
      .ok ⟨"tw4", 5, "2.0",
           .signatureMaps ([cTxA, cTxBad2].map
             (fun t => signatureMapToBase64 (id t).sigMapBytes))⟩ := by
  have h := batch_results_length_order_success 5 "tw4" [cTxA, cTxBad2] cSignerOk id
    (by intro t ht; simp at ht; rcases ht with ht | ht <;> subst ht <;> decide)
    (fun t ht => rfl) (fun t ht => rfl)
    (by intro t ht; simp at ht; rcases ht with ht | ht <;> subst ht <;> decide)
    (fun t ht => rfl)
  exact ⟨h.1.1, h.2.2.1⟩

/-- C10: a transaction in the batch with `transactionId` unset, or with
`nodeAccountIds` unset or empty, makes ExecuteTransaction (and, when the
signer's signing step preserves those attributes' presence,
SignAndExecuteTransaction) throw on its non-null assertions, so the
handler fails before any response envelope is produced. -/
theorem missing_tx_fields_throw_before_response (idv : Int) (topic : String)
    (body : List Transaction) (signer : SignerModel)
    (h : ∃ t ∈ body, ¬ wellformedTx t) :
    hedera_executeTransaction idv topic body signer = .error ()
  ∧ ∀ σ : Transaction → Transaction,
      (∀ t, signer.signTransactionR t = some (σ t)) →
      (∀ t, wellformedTx (σ t) ↔ wellformedTx t) →
      hedera_signAndExecuteTransaction idv topic body signer = .error () := by
  obtain ⟨t0, ht0, hbad⟩ := h
  constructor
  · rw [hedera_executeTransaction,
        mapE_err (executeTxOne signer) body ⟨t0, ht0, executeTxOne_not_wf signer hbad⟩]
    rfl
  · intro σ hσ hiff
    rw [hedera_signAndExecuteTransaction,
        mapE_ok (fun t => optToExcept (signer.signTransactionR t)) σ body
          (fun t ht => by
            show optToExcept (signer.signTransactionR t) = Except.ok (σ t)
            rw [hσ t]
            rfl)]
    show (do
      let result ← mapE (executeTxOne signer) (body.map σ)
      Except.ok (⟨topic, idv, "2.0", .transactionResults result⟩ : ResponseEnvelope) :
        Except Unit ResponseEnvelope) = _
    rw [mapE_err (executeTxOne signer) (body.map σ)
        ⟨σ t0, List.mem_map.mpr ⟨t0, ht0, rfl⟩,
         executeTxOne_not_wf signer (fun hw => hbad ((hiff t0).mp hw))⟩]
    rfl

/-- C10 witness: a concrete transaction with no `transactionId` makes
both handlers throw with no envelope. -/
theorem missing_tx_fields_throw_before_response_witness :
    hedera_executeTransaction 3 "tw10" [cTxBad] cSignerOk = .error ()
  ∧ hedera_signAndExecuteTransaction 3 "tw10" [cTxBad] cSignerOk = .error () :=
  ⟨(missing_tx_fields_throw_before_response 3 "tw10" [cTxBad] cSignerOk
      ⟨cTxBad, by simp, by decide⟩).1,
   (missing_tx_fields_throw_before_response 3 "tw10" [cTxBad] cSignerOk
      ⟨cTxBad, by simp, by decide⟩).2 id (fun t => rfl) (fun t => Iff.rfl)⟩

/-- C9: the codec round-trip laws. Decoding a valid base64 string and
re-encoding (twice, as the spec composes it) restores the string
exactly; encoding a transaction, query, or raw message to base64 and
decoding it back restores the original by canonical wire bytes. -/
theorem codec_base64_roundtrip :
    (∀ (x : String) (bs : List Nat), base64StringToMessage x = .ok bs →
      (base64StringToMessage (Uint8ArrayToBase64String bs)).map Uint8ArrayToBase64String =
        .ok x)
  ∧ (∀ t : Transaction, (∀ b ∈ t.wireBytes, b < 256) →
      (base64StringToTransaction (transactionToBase64String t)).map Transaction.wireBytes =
        .ok t.wireBytes)
  ∧ (∀ q : Query, (∀ b ∈ q.wireBytes, b < 256) →
      (base64StringToQuery (queryToBase64String q)).map Query.wireBytes = .ok q.wireBytes)
  ∧ (∀ bs : List Nat, (∀ b ∈ bs, b < 256) →
      base64StringToMessage (Uint8ArrayToBase64String bs) = .ok bs) := by
  have hmsg : ∀ bs : List Nat, (∀ b ∈ bs, b < 256) →
      base64StringToMessage (Uint8ArrayToBase64String bs) = .ok bs := by
    intro bs hlt
    rw [base64StringToMessage, Uint8ArrayToBase64String]
    rw [show decodeB64String (String.mk (encodeB64 bs)) = some bs by
      rw [decodeB64String]
      exact decodeB64Chars_encodeB64 bs hlt]
  refine ⟨?_, ?_, ?_, hmsg⟩
  · intro x bs h
    have hd : decodeB64Chars x.data = some bs := by
      rw [base64StringToMessage] at h
      cases hd2 : decodeB64String x with
      | none => rw [hd2] at h; cases h
      | some bs2 =>
          rw [hd2] at h
          simp only [Except.ok.injEq] at h
          rw [h] at hd2
          rw [decodeB64String] at hd2
          exact hd2
    obtain ⟨henc, hlt⟩ := encodeB64_decodeB64Chars x.data bs hd
    have hx : Uint8ArrayToBase64String bs = x := by
      rw [Uint8ArrayToBase64String, henc, stringMk_data]
    rw [hx, base64StringToMessage, decodeB64String, hd]
    rw [Except.map, hx]
  · intro t hlt
    rw [transactionToBase64String, base64StringToTransaction, Uint8ArrayToBase64String]
    rw [show decodeB64String (String.mk (encodeB64 t.wireBytes)) = some t.wireBytes by
      rw [decodeB64String]
      exact decodeB64Chars_encodeB64 t.wireBytes hlt]
    rfl
  · intro q hlt
    rw [queryToBase64String, base64StringToQuery, Uint8ArrayToBase64String]
    rw [show decodeB64String (String.mk (encodeB64 q.wireBytes)) = some q.wireBytes by
      rw [decodeB64String]
      exact decodeB64Chars_encodeB64 q.wireBytes hlt]
    rfl

/-- C9 witness: concrete round trips through `"AAEC"` / bytes
`[0, 1, 2]` and the fixture transaction's wire bytes. -/
theorem codec_base64_roundtrip_witness :
    (base64StringToMessage (Uint8ArrayToBase64String [0, 1, 2])).map
        Uint8ArrayToBase64String = .ok "AAEC"
  ∧ (base64StringToTransaction (transactionToBase64String cTxA)).map
        Transaction.wireBytes = .ok cTxA.wireBytes :=
  ⟨codec_base64_roundtrip.1 "AAEC" [0, 1, 2] (by rfl),
   codec_base64_roundtrip.2.1 cTxA (by decide)⟩
